import Mathlib

/-!
# Hand-gesture letter heuristic (`src/App.js`)

A shallow embedding of the three pure functions of `src/App.js`
(`calculateDistance`, `calculateFingerDistances`, `detectFingerLetter`), of the
rule table `letterThresholds`, and of the per-hand loop of `predict`, together
with theorems about them.

JavaScript numbers are IEEE-754 binary64 values.  They are modelled exactly:
a finite number is the rational it denotes, `NaN` and the two infinities are
separate constructors, and every arithmetic operation computes the exact
rational result and rounds it to the nearest binary64 value (ties to even,
gradual underflow, overflow to infinity).  The two zeros `+0` and `-0` are
identified: none of the operations used by the program (`-`, `*`, `+`,
`Math.sqrt`, `>=`, `<=`) tells them apart except by the sign of a zero result.
-/

namespace GestureRecon

/-! ## Numbers -/

/-- A JavaScript Number: `NaN`, `+Infinity`, `-Infinity`, or a finite value
given by the rational it denotes. -/
inductive F64 where
  | nan
  | posInf
  | negInf
  | fin (q : ℚ)
  deriving DecidableEq

/-- Exponent of the spacing of binary64 values around `q`: 53 significant bits
for normal numbers, the fixed spacing `2^-1074` in the subnormal range. -/
def ulpExp (q : ℚ) : ℤ := max (Int.log 2 |q| - 52) (-1074)

/-- Nearest integer to a non-negative rational, ties to the even neighbour. -/
def roundHalfEven (r : ℚ) : ℤ :=
  let f := ⌊r⌋
  if r - f < 1 / 2 then f
  else if 1 / 2 < r - f then f + 1
  else if f % 2 = 0 then f else f + 1

/-- A rounded magnitude `v` with sign `neg`: magnitudes from `2^1024` on
overflow to the infinity of that sign. -/
def overflow (neg : Bool) (v : ℚ) : F64 :=
  if (2 : ℚ) ^ 1024 ≤ v then (if neg then F64.negInf else F64.posInf)
  else F64.fin (if neg then -v else v)

/-- Round an exact rational result to binary64 (round to nearest, ties to
even). -/
def roundF64 (q : ℚ) : F64 :=
  let g := ulpExp q
  overflow (decide (q < 0)) (roundHalfEven (|q| / 2 ^ g) * 2 ^ g)

/-- The value of a decimal numeric literal of the source, such as `0.15`. -/
def lit (q : ℚ) : F64 := roundF64 q

/-- The correctly rounded square root of a non-negative rational, as a
magnitude: with `g` the spacing exponent at `√q` and `s = q / 4^g`, the integer
part of `√s` is `Nat.sqrt ⌊s⌋`, and the rounding direction is decided by
comparing `s` with the square of the midpoint. -/
def sqrtMag (q : ℚ) : ℚ :=
  let g := max (Int.log 2 q / 2 - 52) (-1074)
  let s := q / 4 ^ g
  let m : ℚ := Nat.sqrt ⌊s⌋₊
  let h := (m + 1 / 2) ^ 2
  let r := if s < h then m else if h < s then m + 1
           else if Nat.sqrt ⌊s⌋₊ % 2 = 0 then m else m + 1
  r * 2 ^ g

namespace F64

/-- The JavaScript `a - b`. -/
def sub : F64 → F64 → F64
  | fin a, fin b => roundF64 (a - b)
  | nan, _ => nan
  | _, nan => nan
  | posInf, posInf => nan
  | negInf, negInf => nan
  | posInf, _ => posInf
  | negInf, _ => negInf
  | fin _, posInf => negInf
  | fin _, negInf => posInf

/-- The JavaScript `a + b`. -/
def add : F64 → F64 → F64
  | fin a, fin b => roundF64 (a + b)
  | nan, _ => nan
  | _, nan => nan
  | posInf, negInf => nan
  | negInf, posInf => nan
  | posInf, _ => posInf
  | negInf, _ => negInf
  | fin _, posInf => posInf
  | fin _, negInf => negInf

/-- An infinity of the given sign. -/
def signedInf (neg : Bool) : F64 := if neg then negInf else posInf

/-- The JavaScript `a * b`. -/
def mul : F64 → F64 → F64
  | fin a, fin b => roundF64 (a * b)
  | nan, _ => nan
  | _, nan => nan
  | posInf, posInf => posInf
  | posInf, negInf => negInf
  | negInf, posInf => negInf
  | negInf, negInf => posInf
  | posInf, fin b => if b = 0 then nan else signedInf (decide (b < 0))
  | negInf, fin b => if b = 0 then nan else signedInf (decide (0 < b))
  | fin a, posInf => if a = 0 then nan else signedInf (decide (a < 0))
  | fin a, negInf => if a = 0 then nan else signedInf (decide (0 < a))

/-- The JavaScript `Math.sqrt`. -/
def sqrt : F64 → F64
  | nan => nan
  | posInf => posInf
  | negInf => nan
  | fin q => if q < 0 then nan else overflow false (sqrtMag q)

/-- The JavaScript `a <= b` on numbers: false as soon as one side is `NaN`. -/
def le : F64 → F64 → Bool
  | nan, _ => false
  | _, nan => false
  | negInf, _ => true
  | _, posInf => true
  | fin a, fin b => decide (a ≤ b)
  | posInf, _ => false
  | fin _, negInf => false

/-- The JavaScript `a >= b` on numbers. -/
def ge (a b : F64) : Bool := le b a

/-- The JavaScript `a < b` on numbers. -/
def lt : F64 → F64 → Bool
  | nan, _ => false
  | _, nan => false
  | _, negInf => false
  | posInf, _ => false
  | fin a, fin b => decide (a < b)
  | negInf, _ => true
  | fin _, posInf => true

/-- The JavaScript `a > b` on numbers. -/
def gt (a b : F64) : Bool := lt b a

/-- A finite number: neither `NaN` nor an infinity. -/
def isFinite : F64 → Bool
  | fin _ => true
  | _ => false

end F64

/-- Conversion of a value that is a number or `undefined` (`none`) to a number:
`undefined` becomes `NaN`. -/
def toNumber : Option F64 → F64
  | some d => d
  | none => F64.nan

/-! ## The program -/

/-- The kinds of failure: `TypeError` is the exception a property read on
`undefined` throws; `InputError` is the error kind the specification names,
which no statement of `App.js` throws. -/
inductive JSError where
  | TypeError
  | InputError
  deriving DecidableEq

/-- A hand landmark as the detector delivers it. -/
structure Landmark where
  x : F64
  y : F64
  z : F64
  deriving DecidableEq

/-- An entry of `letterThresholds`. -/
structure Threshold where
  letter : String
  minDistance : F64
  maxDistance : F64
  deriving DecidableEq

/-- The object `detectFingerLetter` returns, which is also the `fingerData`
state of `App`; `distance` is a number or `undefined` (`none`). -/
structure FingerData where
  letter : String
  distance : Option F64
  deriving DecidableEq

/-- The rule table `letterThresholds` (App.js, lines 5-8). -/
def letterThresholds : List Threshold :=
  [ { letter := "L", minDistance := lit (1 / 10), maxDistance := lit (15 / 100) },
    { letter := "A", minDistance := lit (15 / 100), maxDistance := lit (2 / 10) } ]

/-- The table `fingerIndices` (App.js, lines 12-18). -/
def fingerIndices : List (List ℕ) :=
  [[2, 3, 4], [5, 6, 7], [9, 10, 11], [13, 14, 15], [17, 18, 19]]

/-- The function `calculateDistance` (App.js, lines 29-33).  An argument is a landmark or
`undefined` (`none`); reading `.x` of `undefined` throws, and `p2.x` is read
first. -/
def calculateDistance (p1 p2 : Option Landmark) : Except JSError F64 :=
  match p2, p1 with
  | some b, some a =>
      let dx := F64.sub b.x a.x
      let dy := F64.sub b.y a.y
      .ok (F64.sqrt (F64.add (F64.mul dx dx) (F64.mul dy dy)))
  | _, _ => .error JSError.TypeError

/-- The body of the loop of `calculateFingerDistances` (App.js, lines 21-23):
look the three indices up (`undefined` past the end of the array), take the
first three results, and push the sum of the two distances. -/
def fingerStep (landmarks : List Landmark) (fingerDistances : List F64)
    (indices : List ℕ) : Except JSError (List F64) := do
  let ps := indices.map (fun i => landmarks[i]?)
  let p1 := (ps[0]?).join
  let p2 := (ps[1]?).join
  let p3 := (ps[2]?).join
  let d1 ← calculateDistance p1 p2
  let d2 ← calculateDistance p2 p3
  pure (fingerDistances ++ [F64.add d1 d2])

/-- The function `calculateFingerDistances` (App.js, lines 10-27): the loop
over `fingerIndices`, starting from the empty array. -/
def calculateFingerDistances (landmarks : List Landmark) : Except JSError (List F64) :=
  fingerIndices.foldlM (fingerStep landmarks) []

/-- The condition of line 40 for one rule, on the value read at
`fingerDistances[0]`. -/
def inRange (distance : Option F64) (t : Threshold) : Bool :=
  F64.ge (toNumber distance) t.minDistance && F64.le (toNumber distance) t.maxDistance

/-- The loop of `detectFingerLetter` over the rules still to be tried: return
at the first rule whose range holds the value, the sentinel when none is
left. -/
def detectLoop (fingerDistances : List F64) : List Threshold → FingerData
  | [] => { letter := "", distance := some (lit 0) }
  | threshold :: rest =>
      let distance := fingerDistances[0]?
      if inRange distance threshold then
        { letter := threshold.letter, distance := distance }
      else detectLoop fingerDistances rest

/-- The function `detectFingerLetter` (App.js, lines 35-46): the loop over
`letterThresholds`. -/
def detectFingerLetter (fingerDistances : List F64) : FingerData :=
  detectLoop fingerDistances letterThresholds

/-- The body of the loop over the hands in `predict` (App.js, lines 84-119).
The drawing calls leave `fingerData` alone and are left out; reading
`landmarks[0].x` and calling `distance.toFixed` throw on `undefined`.  The
state written by `setFingerData` does not depend on the state before. -/
def predictStep (_fingerData : FingerData) (landmarks : List Landmark) :
    Except JSError FingerData := do
  let fingerDistances ← calculateFingerDistances landmarks
  let r := detectFingerLetter fingerDistances
  match landmarks[0]?, r.distance with
  | some _, some _ => pure { letter := r.letter, distance := r.distance }
  | _, _ => throw JSError.TypeError

/-- The hands loop of `predict` (App.js, lines 83-120) as a function of
`results.landmarks` (`none` when absent) and of the `fingerData` state before
the frame; it returns the state after the frame. -/
def predict (resultsLandmarks : Option (List (List Landmark)))
    (fingerData : FingerData) : Except JSError FingerData :=
  match resultsLandmarks with
  | none => .ok fingerData
  | some hands => hands.foldlM predictStep fingerData

/-! ## Definitions used to state the properties -/

/-- The planar distance of the specification, `sqrt((q.x-p.x)^2 + (q.y-p.y)^2)`,
in JavaScript arithmetic. -/
def specDist (p q : Landmark) : F64 :=
  F64.sqrt (F64.add (F64.mul (F64.sub q.x p.x) (F64.sub q.x p.x))
    (F64.mul (F64.sub q.y p.y) (F64.sub q.y p.y)))

/-- The value a finger group contributes in the specification,
`dist(p1,p2) + dist(p2,p3)`. -/
def specGroupDistance (p1 p2 p3 : Landmark) : F64 :=
  F64.add (specDist p1 p2) (specDist p2 p3)

/-- A valid hand: 21 landmarks whose planar coordinates are finite numbers (the
normalised coordinates of the detector, in `[0,1]`, are of this kind). -/
def ValidHand (L : List Landmark) : Prop :=
  L.length = 21 ∧ ∀ p ∈ L, p.x.isFinite = true ∧ p.y.isFinite = true

instance (L : List Landmark) : Decidable (ValidHand L) := by
  unfold ValidHand; infer_instance

/-- The initial `fingerData` state of `App` (App.js, line 52). -/
def initialFingerData : FingerData := { letter := "", distance := some (lit 0) }

/-- A landmark with rational coordinates. -/
def pt (x y z : ℚ) : Landmark := { x := F64.fin x, y := F64.fin y, z := F64.fin z }

/-- A 21-point hand whose thumb group is `(0,0)`, `(3,0)`, `(3,4)` and whose
other landmarks sit at the origin. -/
def exampleHand : List Landmark :=
  [pt 0 0 0, pt 0 0 0, pt 0 0 0, pt 3 0 0, pt 3 4 0, pt 0 0 0, pt 0 0 0,
   pt 0 0 0, pt 0 0 0, pt 0 0 0, pt 0 0 0, pt 0 0 0, pt 0 0 0, pt 0 0 0,
   pt 0 0 0, pt 0 0 0, pt 0 0 0, pt 0 0 0, pt 0 0 0, pt 0 0 0, pt 0 0 0]

/-- A 20-point hand that agrees with `exampleHand` on `x` and `y` at the indices
the finger groups use, and differs from it in every `z`, at the landmarks 0, 1,
8, 12 and 16, and in length. -/
def otherHand : List Landmark :=
  [pt 5 6 1, pt 7 8 1, pt 0 0 1, pt 3 0 1, pt 3 4 1, pt 0 0 1, pt 0 0 1,
   pt 0 0 1, pt 9 9 1, pt 0 0 1, pt 0 0 1, pt 0 0 1, pt 2 2 1, pt 0 0 1,
   pt 0 0 1, pt 0 0 1, pt 4 4 1, pt 0 0 1, pt 0 0 1, pt 0 0 1]

/-- A 21-point hand whose thumb group is `(0,0)`, `(1/8,0)`, `(1/8,0)`, of
thumb distance `0.125` (inside the range of the rule `L` only). -/
def handL : List Landmark :=
  [pt 0 0 0, pt 0 0 0, pt 0 0 0, pt (1 / 8) 0 0, pt (1 / 8) 0 0, pt 0 0 0, pt 0 0 0,
   pt 0 0 0, pt 0 0 0, pt 0 0 0, pt 0 0 0, pt 0 0 0, pt 0 0 0, pt 0 0 0,
   pt 0 0 0, pt 0 0 0, pt 0 0 0, pt 0 0 0, pt 0 0 0, pt 0 0 0, pt 0 0 0]

/-- A 21-point hand whose thumb group is `(0,0)`, `(3/16,0)`, `(3/16,0)`, of
thumb distance `0.1875` (inside the range of the rule `A` only). -/
def handA : List Landmark :=
  [pt 0 0 0, pt 0 0 0, pt 0 0 0, pt (3 / 16) 0 0, pt (3 / 16) 0 0, pt 0 0 0, pt 0 0 0,
   pt 0 0 0, pt 0 0 0, pt 0 0 0, pt 0 0 0, pt 0 0 0, pt 0 0 0, pt 0 0 0,
   pt 0 0 0, pt 0 0 0, pt 0 0 0, pt 0 0 0, pt 0 0 0, pt 0 0 0, pt 0 0 0]

/-! ## Evaluation of the number model -/

theorem log2_eq {q : ℚ} {k : ℤ} (hq : 0 < q) (h1 : (2 : ℚ) ^ k ≤ q) (h2 : q < (2 : ℚ) ^ (k + 1)) :
    Int.log 2 q = k := by
  have hb : 1 < (2 : ℕ) := by norm_num
  have ha : k ≤ Int.log 2 q := by
    rw [← Int.zpow_le_iff_le_log hb hq]; exact_mod_cast h1
  have hc : Int.log 2 q < k + 1 := by
    rw [← Int.lt_zpow_iff_log_lt hb hq]; exact_mod_cast h2
  omega

theorem roundHalfEven_eq {r : ℚ} {m : ℤ} (h1 : (m : ℚ) - 1 / 2 < r) (h2 : r < (m : ℚ) + 1 / 2) :
    roundHalfEven r = m := by
  unfold roundHalfEven
  by_cases hm : (m : ℚ) ≤ r
  · have hf : ⌊r⌋ = m := by rw [Int.floor_eq_iff]; constructor <;> linarith
    simp only [hf]
    rw [if_pos (by linarith)]
  · have hf : ⌊r⌋ = m - 1 := by
      rw [Int.floor_eq_iff]; push_cast; constructor <;> linarith
    simp only [hf]
    push_cast
    rw [if_neg (by linarith), if_pos (by linarith)]
    ring

/-- Evaluation of the rounding of a positive rational away from ties. -/
theorem roundF64_pos_eq {q v : ℚ} (k g m : ℤ) (hq : 0 < q)
    (hk1 : (2 : ℚ) ^ k ≤ q) (hk2 : q < (2 : ℚ) ^ (k + 1))
    (hg : max (k - 52) (-1074) = g)
    (hm1 : ((m : ℚ) - 1 / 2) * 2 ^ g < q) (hm2 : q < ((m : ℚ) + 1 / 2) * 2 ^ g)
    (hv : (m : ℚ) * 2 ^ g = v) (hov : v < 2 ^ 1024) :
    roundF64 q = F64.fin v := by
  have hl : Int.log 2 |q| = k := by
    rw [abs_of_pos hq]; exact log2_eq hq hk1 hk2
  have hpos : (0 : ℚ) < 2 ^ g := by positivity
  have hr : roundHalfEven (|q| / 2 ^ g) = m := by
    rw [abs_of_pos hq]
    apply roundHalfEven_eq
    · rw [lt_div_iff₀ hpos]; exact hm1
    · rw [div_lt_iff₀ hpos]; exact hm2
  simp only [roundF64, ulpExp, hl, hg, hr, hv, overflow]
  rw [if_neg (not_le.mpr hov)]
  simp [not_lt.mpr hq.le]

theorem lit_tenth : lit (1 / 10) = F64.fin (3602879701896397 / 2 ^ 55) := by
  apply roundF64_pos_eq (-4) (-56) 7205759403792794 <;> norm_num

theorem lit_fifteen : lit (15 / 100) = F64.fin (5404319552844595 / 2 ^ 55) := by
  apply roundF64_pos_eq (-3) (-55) 5404319552844595 <;> norm_num

theorem lit_fifth : lit (2 / 10) = F64.fin (3602879701896397 / 2 ^ 54) := by
  apply roundF64_pos_eq (-3) (-55) 7205759403792794 <;> norm_num

theorem lit_three_tenths : lit (3 / 10) = F64.fin (5404319552844595 / 2 ^ 54) := by
  apply roundF64_pos_eq (-2) (-54) 5404319552844595 <;> norm_num

theorem lit_zero : lit 0 = F64.fin 0 := by
  simp [lit, roundF64, roundHalfEven, overflow]

theorem roundF64_zero : roundF64 0 = F64.fin 0 := by
  simp [roundF64, roundHalfEven, overflow]

/-- Evaluation of the rounded square root when the root rounds down (in
particular when it is exact). -/
theorem sqrtMag_eq {q v : ℚ} (k g : ℤ) (m : ℕ) (hq : 0 < q)
    (hk1 : (2 : ℚ) ^ k ≤ q) (hk2 : q < (2 : ℚ) ^ (k + 1))
    (hg : max (k / 2 - 52) (-1074) = g)
    (hs1 : (m : ℚ) ^ 2 ≤ q / 4 ^ g) (hs2 : q / 4 ^ g < ((m : ℚ) + 1 / 2) ^ 2)
    (hv : (m : ℚ) * 2 ^ g = v) : sqrtMag q = v := by
  have hl : Int.log 2 q = k := log2_eq hq hk1 hk2
  have hs0 : (0 : ℚ) ≤ q / 4 ^ g := by positivity
  have hn : Nat.sqrt ⌊q / (4 : ℚ) ^ g⌋₊ = m := by
    symm
    rw [Nat.eq_sqrt]
    constructor
    · apply Nat.le_floor
      push_cast
      nlinarith
    · rw [Nat.floor_lt hs0]
      push_cast
      nlinarith
  simp only [sqrtMag, hl, hg, hn]
  rw [if_pos hs2, hv]

theorem sqrt_nine : F64.sqrt (F64.fin 9) = F64.fin 3 := by
  have h : sqrtMag 9 = 3 := by
    apply sqrtMag_eq 3 (-51) (3 * 2 ^ 51) <;> norm_num
  simp only [F64.sqrt, h, overflow]
  norm_num

theorem sqrt_sixteen : F64.sqrt (F64.fin 16) = F64.fin 4 := by
  have h : sqrtMag 16 = 4 := by
    apply sqrtMag_eq 4 (-50) (4 * 2 ^ 50) <;> norm_num
  simp only [F64.sqrt, h, overflow]
  norm_num

theorem roundF64_three : roundF64 3 = F64.fin 3 := by
  apply roundF64_pos_eq 1 (-51) (3 * 2 ^ 51) <;> norm_num

theorem roundF64_four : roundF64 4 = F64.fin 4 := by
  apply roundF64_pos_eq 2 (-50) (4 * 2 ^ 50) <;> norm_num

theorem roundF64_seven : roundF64 7 = F64.fin 7 := by
  apply roundF64_pos_eq 2 (-50) (7 * 2 ^ 50) <;> norm_num

theorem roundF64_nine : roundF64 9 = F64.fin 9 := by
  apply roundF64_pos_eq 3 (-49) (9 * 2 ^ 49) <;> norm_num

theorem roundF64_sixteen : roundF64 16 = F64.fin 16 := by
  apply roundF64_pos_eq 4 (-48) (16 * 2 ^ 48) <;> norm_num

theorem sub_fin (a b : ℚ) : F64.sub (F64.fin a) (F64.fin b) = roundF64 (a - b) := rfl

theorem add_fin (a b : ℚ) : F64.add (F64.fin a) (F64.fin b) = roundF64 (a + b) := rfl

theorem mul_fin (a b : ℚ) : F64.mul (F64.fin a) (F64.fin b) = roundF64 (a * b) := rfl

/-- The example of the specification: base `(0,0)`, middle `(3,0)`, tip `(3,4)`
give `3 + 4 = 7`, whatever the depth values. -/
theorem specGroupDistance_example (z1 z2 z3 : F64) :
    specGroupDistance ⟨F64.fin 0, F64.fin 0, z1⟩ ⟨F64.fin 3, F64.fin 0, z2⟩
      ⟨F64.fin 3, F64.fin 4, z3⟩ = F64.fin 7 := by
  have e1 : ((3 : ℚ) - 0) = 3 := by norm_num
  have e2 : ((3 : ℚ) * 3) = 9 := by norm_num
  have e3 : ((9 : ℚ) + 0) = 9 := by norm_num
  have e4 : ((4 : ℚ) - 0) = 4 := by norm_num
  have e5 : ((4 : ℚ) * 4) = 16 := by norm_num
  have e6 : ((0 : ℚ) + 16) = 16 := by norm_num
  have e7 : ((3 : ℚ) + 4) = 7 := by norm_num
  have e8 : ((0 : ℚ) - 0) = 0 := by norm_num
  have e9 : ((3 : ℚ) - 3) = 0 := by norm_num
  have e10 : ((0 : ℚ) * 0) = 0 := by norm_num
  simp only [specGroupDistance, specDist, sub_fin, mul_fin, add_fin, e1, e2, e3, e4, e5, e6, e7, e8,
    e9, e10, roundF64_zero, roundF64_three, roundF64_four, roundF64_nine, roundF64_sixteen,
    roundF64_seven, sqrt_nine, sqrt_sixteen]

/-! ## Signs -/

theorem roundHalfEven_nonneg {r : ℚ} (hr : 0 ≤ r) : 0 ≤ roundHalfEven r := by
  have hf : 0 ≤ ⌊r⌋ := Int.floor_nonneg.mpr hr
  unfold roundHalfEven
  simp only
  split_ifs <;> omega

theorem overflow_false_nonneg {v : ℚ} (hv : 0 ≤ v) :
    F64.le (F64.fin 0) (overflow false v) = true := by
  simp only [overflow, Bool.false_eq_true, if_false]
  split_ifs <;> simp [F64.le, hv]

theorem roundF64_nonneg {q : ℚ} (hq : 0 ≤ q) : F64.le (F64.fin 0) (roundF64 q) = true := by
  unfold roundF64
  simp only [not_lt.mpr hq, decide_False]
  apply overflow_false_nonneg
  have h1 : (0 : ℚ) ≤ roundHalfEven (|q| / 2 ^ ulpExp q) := by
    exact_mod_cast roundHalfEven_nonneg (by positivity)
  positivity

theorem overflow_ne_nan (neg : Bool) (v : ℚ) : overflow neg v ≠ F64.nan := by
  unfold overflow
  split_ifs <;> simp

theorem roundF64_ne_nan (q : ℚ) : roundF64 q ≠ F64.nan := overflow_ne_nan _ _

theorem sub_ne_nan {a b : F64} (ha : a.isFinite = true) (hb : b.isFinite = true) :
    F64.sub a b ≠ F64.nan := by
  cases a <;> cases b <;> simp_all [F64.isFinite, F64.sub, roundF64_ne_nan]

theorem mul_self_ge_zero {a : F64} (ha : a ≠ F64.nan) :
    F64.le (F64.fin 0) (F64.mul a a) = true := by
  cases a with
  | nan => exact absurd rfl ha
  | posInf => rfl
  | negInf => rfl
  | fin q => exact roundF64_nonneg (mul_self_nonneg q)

theorem add_ge_zero {a b : F64} (ha : F64.le (F64.fin 0) a = true)
    (hb : F64.le (F64.fin 0) b = true) : F64.le (F64.fin 0) (F64.add a b) = true := by
  cases a <;> cases b <;> simp_all [F64.le, F64.add]
  exact roundF64_nonneg (by positivity)

theorem sqrtMag_nonneg (q : ℚ) : 0 ≤ sqrtMag q := by
  unfold sqrtMag
  simp only
  split_ifs <;> positivity

theorem sqrt_ge_zero {a : F64} (ha : F64.le (F64.fin 0) a = true) :
    F64.le (F64.fin 0) (F64.sqrt a) = true := by
  cases a with
  | nan => simp [F64.le] at ha
  | posInf => rfl
  | negInf => simp [F64.le] at ha
  | fin q =>
    have hq : 0 ≤ q := by simpa [F64.le] using ha
    simp only [F64.sqrt, not_lt.mpr hq, if_false]
    exact overflow_false_nonneg (sqrtMag_nonneg q)

theorem dist_ge_zero {p q : Landmark} (hpx : p.x.isFinite = true) (hpy : p.y.isFinite = true)
    (hqx : q.x.isFinite = true) (hqy : q.y.isFinite = true) :
    F64.le (F64.fin 0) (specDist p q) = true :=
  sqrt_ge_zero (add_ge_zero (mul_self_ge_zero (sub_ne_nan hqx hpx))
    (mul_self_ge_zero (sub_ne_nan hqy hpy)))

/-! ## The feature extractor -/

theorem calculateDistance_some (a b : Landmark) :
    calculateDistance (some a) (some b) = .ok (specDist a b) := rfl

theorem calculateDistance_none_right (p : Option Landmark) :
    calculateDistance p none = .error JSError.TypeError := by
  cases p <;> rfl

theorem calculateDistance_none_left (p : Option Landmark) :
    calculateDistance none p = .error JSError.TypeError := by
  cases p <;> rfl

theorem fingerStep_eq (L : List Landmark) (acc : List F64) (a b c : ℕ) :
    fingerStep L acc [a, b, c] =
      match L[a]?, L[b]?, L[c]? with
      | some pa, some pb, some pc => .ok (acc ++ [specGroupDistance pa pb pc])
      | _, _, _ => .error JSError.TypeError := by
  unfold fingerStep
  cases ha : L[a]? <;> cases hb : L[b]? <;> cases hc : L[c]? <;>
    simp [ha, hb, hc, calculateDistance_some, calculateDistance_none_left,
      calculateDistance_none_right, specGroupDistance, bind, Except.bind, pure, Except.pure]

theorem fingerStep_cases (L : List Landmark) (acc : List F64) (a b c : ℕ) :
    fingerStep L acc [a, b, c] = .error JSError.TypeError ∨
      ∃ v, fingerStep L acc [a, b, c] = .ok v := by
  rw [fingerStep_eq]
  cases L[a]? <;> cases L[b]? <;> cases L[c]? <;> simp

theorem ok_bind {α β : Type} (a : α) (f : α → Except JSError β) :
    ((Except.ok a : Except JSError α) >>= f) = f a := rfl

theorem error_bind {α β : Type} (e : JSError) (f : α → Except JSError β) :
    ((Except.error e : Except JSError α) >>= f) = Except.error e := rfl

theorem calculateFingerDistances_of_le (L : List Landmark) (h : 20 ≤ L.length) :
    calculateFingerDistances L = .ok
      [ specGroupDistance L[2] L[3] L[4], specGroupDistance L[5] L[6] L[7],
        specGroupDistance L[9] L[10] L[11], specGroupDistance L[13] L[14] L[15],
        specGroupDistance L[17] L[18] L[19] ] := by
  have e : ∀ i (hi : i < L.length), L[i]? = some L[i] := fun i hi =>
    List.getElem?_eq_getElem hi
  simp only [calculateFingerDistances, fingerIndices, List.foldlM, fingerStep_eq]
  rw [e 2 (by omega), e 3 (by omega), e 4 (by omega), e 5 (by omega), e 6 (by omega),
    e 7 (by omega), e 9 (by omega), e 10 (by omega), e 11 (by omega), e 13 (by omega),
    e 14 (by omega), e 15 (by omega), e 17 (by omega), e 18 (by omega), e 19 (by omega)]
  rfl

theorem calculateFingerDistances_of_lt (L : List Landmark) (h : L.length < 20) :
    calculateFingerDistances L = .error JSError.TypeError := by
  have e : L[19]? = none := List.getElem?_eq_none (by omega)
  have hs : ∀ acc, fingerStep L acc [17, 18, 19] = .error JSError.TypeError := by
    intro acc
    rw [fingerStep_eq, e]
    cases L[17]? <;> cases L[18]? <;> rfl
  simp only [calculateFingerDistances, fingerIndices, List.foldlM]
  rcases fingerStep_cases L [] 2 3 4 with h1 | ⟨v1, h1⟩ <;> simp only [h1, error_bind, ok_bind]
  rcases fingerStep_cases L v1 5 6 7 with h2 | ⟨v2, h2⟩ <;> simp only [h2, error_bind, ok_bind]
  rcases fingerStep_cases L v2 9 10 11 with h3 | ⟨v3, h3⟩ <;>
    simp only [h3, error_bind, ok_bind]
  rcases fingerStep_cases L v3 13 14 15 with h4 | ⟨v4, h4⟩ <;>
    simp only [h4, error_bind, ok_bind]
  simp only [hs, error_bind]

/-! ## The classifier loop -/

theorem inRange_none (t : Threshold) : inRange none t = false := by
  simp [inRange, toNumber, F64.ge, F64.le]

theorem inRange_some (d : F64) (t : Threshold) :
    inRange (some d) t = (F64.le t.minDistance d && F64.le d t.maxDistance) := rfl

theorem detectLoop_congr {v w : List F64} (h : v[0]? = w[0]?) (rules : List Threshold) :
    detectLoop v rules = detectLoop w rules := by
  induction rules with
  | nil => rfl
  | cons t rest ih => simp only [detectLoop, h, ih]

theorem detectLoop_first_match (v : List F64) (pre post : List Threshold) (r : Threshold)
    (hpre : ∀ t ∈ pre, inRange v[0]? t = false) (hr : inRange v[0]? r = true) :
    detectLoop v (pre ++ r :: post) = { letter := r.letter, distance := v[0]? } := by
  induction pre with
  | nil => simp [detectLoop, hr]
  | cons t rest ih =>
    have ht : inRange v[0]? t = false := hpre t (List.mem_cons_self _ _)
    have hrest : ∀ t ∈ rest, inRange v[0]? t = false := fun t ht =>
      hpre t (List.mem_cons_of_mem _ ht)
    simp [detectLoop, ht, ih hrest]

theorem detectLoop_no_match (v : List F64) (rules : List Threshold)
    (h : ∀ t ∈ rules, inRange v[0]? t = false) :
    detectLoop v rules = { letter := "", distance := some (lit 0) } := by
  induction rules with
  | nil => rfl
  | cons t rest ih =>
    have ht : inRange v[0]? t = false := h t (List.mem_cons_self _ _)
    simp [detectLoop, ht, ih (fun t ht => h t (List.mem_cons_of_mem _ ht))]

theorem detectLoop_cases (v : List F64) (rules : List Threshold) :
    detectLoop v rules = { letter := "", distance := some (lit 0) } ∨
      ∃ t ∈ rules, inRange v[0]? t = true ∧
        detectLoop v rules = { letter := t.letter, distance := v[0]? } := by
  induction rules with
  | nil => exact Or.inl rfl
  | cons t rest ih =>
    by_cases ht : inRange v[0]? t = true
    · exact Or.inr ⟨t, List.mem_cons_self _ _, ht, by simp [detectLoop, ht]⟩
    · have e : detectLoop v (t :: rest) = detectLoop v rest := by simp [detectLoop, ht]
      rw [e]
      rcases ih with h | ⟨u, hu, h1, h2⟩
      · exact Or.inl h
      · exact Or.inr ⟨u, List.mem_cons_of_mem _ hu, h1, h2⟩

theorem detect_distance_isSome (v : List F64) :
    ∃ d, (detectFingerLetter v).distance = some d := by
  rcases detectLoop_cases v letterThresholds with h | ⟨t, _, h1, h2⟩
  · exact ⟨lit 0, by rw [detectFingerLetter, h]⟩
  · cases hv : v[0]? with
    | none => rw [hv, inRange_none] at h1; cases h1
    | some d => exact ⟨d, by rw [detectFingerLetter, h2, hv]⟩

theorem lt_imp_not_le {a b : F64} (h : F64.lt a b = true) : F64.le b a = false := by
  cases a <;> cases b <;> simp_all [F64.lt, F64.le]

/-! ## Properties of `calculateFingerDistances` -/

theorem sqrt_zero : F64.sqrt (F64.fin 0) = F64.fin 0 := by
  simp [F64.sqrt, sqrtMag, overflow]

theorem specGroupDistance_origin (z1 z2 z3 : F64) :
    specGroupDistance ⟨F64.fin 0, F64.fin 0, z1⟩ ⟨F64.fin 0, F64.fin 0, z2⟩
      ⟨F64.fin 0, F64.fin 0, z3⟩ = F64.fin 0 := by
  have e1 : ((0 : ℚ) - 0) = 0 := by norm_num
  have e2 : ((0 : ℚ) * 0) = 0 := by norm_num
  have e3 : ((0 : ℚ) + 0) = 0 := by norm_num
  simp only [specGroupDistance, specDist, sub_fin, mul_fin, add_fin, e1, e2, e3,
    roundF64_zero, sqrt_zero]

/-- C1: for every landmark sequence with entries at the indices 0..19,
`calculateFingerDistances` returns exactly five values, the k-th being
`dist(L[a],L[b]) + dist(L[b],L[c])` for the k-th triple of the table
(2,3,4), (5,6,7), (9,10,11), (13,14,15), (17,18,19), with `dist` the planar
Euclidean distance; for the group points (0,0), (3,0), (3,4) the value is 7. -/
theorem calculateFingerDistances_formula (L : List Landmark) (h : 20 ≤ L.length) :
    calculateFingerDistances L = .ok
        [ specGroupDistance L[2] L[3] L[4], specGroupDistance L[5] L[6] L[7],
          specGroupDistance L[9] L[10] L[11], specGroupDistance L[13] L[14] L[15],
          specGroupDistance L[17] L[18] L[19] ]
      ∧ ∀ z1 z2 z3 : F64,
          specGroupDistance ⟨F64.fin 0, F64.fin 0, z1⟩ ⟨F64.fin 3, F64.fin 0, z2⟩
            ⟨F64.fin 3, F64.fin 4, z3⟩ = F64.fin 7 :=
  ⟨calculateFingerDistances_of_le L h, specGroupDistance_example⟩

theorem calculateFingerDistances_formula_witness :
    20 ≤ exampleHand.length ∧
      calculateFingerDistances exampleHand =
        .ok [F64.fin 7, F64.fin 0, F64.fin 0, F64.fin 0, F64.fin 0] := by
  refine ⟨by decide, ?_⟩
  rw [(calculateFingerDistances_formula exampleHand (by decide)).1]
  simp only [exampleHand, pt, List.getElem_cons_succ, List.getElem_cons_zero,
    specGroupDistance_example, specGroupDistance_origin]

theorem specGroupDistance_ge_zero {p1 p2 p3 : Landmark}
    (h1 : p1.x.isFinite = true ∧ p1.y.isFinite = true)
    (h2 : p2.x.isFinite = true ∧ p2.y.isFinite = true)
    (h3 : p3.x.isFinite = true ∧ p3.y.isFinite = true) :
    F64.ge (specGroupDistance p1 p2 p3) (F64.fin 0) = true :=
  add_ge_zero (dist_ge_zero h1.1 h1.2 h2.1 h2.2) (dist_ge_zero h2.1 h2.2 h3.1 h3.2)

/-- C2: for every valid 21-point landmark sequence, `calculateFingerDistances`
returns exactly five numbers, and each of them is `>= 0`. -/
theorem calculateFingerDistances_nonneg (L : List Landmark) (h : ValidHand L) :
    ∃ v, calculateFingerDistances L = .ok v ∧ v.length = 5 ∧
      ∀ d ∈ v, F64.ge d (F64.fin 0) = true := by
  obtain ⟨hlen, hfin⟩ := h
  have h20 : 20 ≤ L.length := by omega
  have hf : ∀ i (hi : i < L.length), L[i].x.isFinite = true ∧ L[i].y.isFinite = true :=
    fun i hi => hfin _ (List.getElem_mem hi)
  refine ⟨_, calculateFingerDistances_of_le L h20, rfl, ?_⟩
  intro d hd
  simp only [List.mem_cons, List.mem_singleton, List.not_mem_nil, or_false] at hd
  rcases hd with rfl | rfl | rfl | rfl | rfl <;>
    exact specGroupDistance_ge_zero (hf _ _) (hf _ _) (hf _ _)

theorem calculateFingerDistances_nonneg_witness :
    ValidHand exampleHand ∧
      ∃ v, calculateFingerDistances exampleHand = .ok v ∧ v.length = 5 ∧
        ∀ d ∈ v, F64.ge d (F64.fin 0) = true :=
  have hv : ValidHand exampleHand := by
    simp [ValidHand, exampleHand, pt, F64.isFinite]
  ⟨hv, calculateFingerDistances_nonneg exampleHand hv⟩

/-- C6, the claim refuted: on the empty landmark sequence
`calculateFingerDistances` fails, but with the `TypeError` thrown by reading
`.x` of `undefined`, not with an `InputError`. -/
theorem inputError_counterexample :
    calculateFingerDistances [] = .error JSError.TypeError ∧
      calculateFingerDistances [] ≠ .error JSError.InputError := by
  have e : calculateFingerDistances [] = .error JSError.TypeError :=
    calculateFingerDistances_of_lt [] (by decide)
  refine ⟨e, ?_⟩
  rw [e]
  simp

/-- C6, amended: `calculateFingerDistances` fails on every landmark sequence
shorter than 20 entries, the empty one included, by throwing the `TypeError` of
reading `.x` of `undefined` (never an `InputError`), and never returns a
partial or padded vector there; it returns a five-entry vector on every
sequence with at least 20 entries; so it fails exactly when index 19 is
missing. -/
theorem calculateFingerDistances_fails_iff (L : List Landmark) :
    (calculateFingerDistances L = .error JSError.TypeError ↔ L.length < 20) ∧
      ((∃ v, calculateFingerDistances L = .ok v ∧ v.length = 5) ↔ 20 ≤ L.length) ∧
      (∀ v, calculateFingerDistances L = .ok v → 20 ≤ L.length ∧ v.length = 5) ∧
      calculateFingerDistances L ≠ .error JSError.InputError := by
  have hlt : L.length < 20 → calculateFingerDistances L = .error JSError.TypeError :=
    calculateFingerDistances_of_lt L
  have hle := calculateFingerDistances_of_le L
  refine ⟨⟨?_, hlt⟩, ⟨?_, fun h => ⟨_, hle h, rfl⟩⟩, ?_, ?_⟩
  · intro he
    by_contra hc
    rw [hle (by omega)] at he
    cases he
  · rintro ⟨v, hv, _⟩
    by_contra hc
    rw [hlt (by omega)] at hv
    cases hv
  · intro v hv
    by_cases hc : 20 ≤ L.length
    · rw [hle hc] at hv
      cases hv
      exact ⟨hc, rfl⟩
    · rw [hlt (by omega)] at hv
      cases hv
  · intro he
    by_cases hc : 20 ≤ L.length
    · rw [hle hc] at he
      cases he
    · rw [hlt (by omega)] at he
      cases he

theorem calculateFingerDistances_fails_iff_witness :
    calculateFingerDistances (exampleHand.take 19) = .error JSError.TypeError ∧
      ∃ v, calculateFingerDistances (exampleHand.take 20) = .ok v ∧ v.length = 5 :=
  ⟨(calculateFingerDistances_fails_iff (exampleHand.take 19)).1.mpr (by decide),
    (calculateFingerDistances_fails_iff (exampleHand.take 20)).2.1.mpr (by decide)⟩

/-- C10: `calculateFingerDistances` depends only on the `x` and `y` coordinates
of the landmarks at the indices 2,3,4,5,6,7,9,10,11,13,14,15,17,18,19: two
sequences of length at least 20 that agree there have equal outputs, whatever
their `z` values, their other landmarks and their lengths. -/
theorem calculateFingerDistances_depends_only (L M : List Landmark)
    (hL : 20 ≤ L.length) (hM : 20 ≤ M.length)
    (hxy : ∀ i ∈ [2, 3, 4, 5, 6, 7, 9, 10, 11, 13, 14, 15, 17, 18, 19],
      L[i]?.map (fun p => (p.x, p.y)) = M[i]?.map (fun p => (p.x, p.y))) :
    calculateFingerDistances L = calculateFingerDistances M := by
  have key : ∀ i (hi : i < L.length) (hj : i < M.length),
      L[i]?.map (fun p => (p.x, p.y)) = M[i]?.map (fun p => (p.x, p.y)) →
      L[i].x = M[i].x ∧ L[i].y = M[i].y := by
    intro i hi hj hm
    rw [List.getElem?_eq_getElem hi, List.getElem?_eq_getElem hj] at hm
    simpa using hm
  have hd : ∀ i j (hi : i < L.length) (hi2 : i < M.length) (hj : j < L.length)
      (hj2 : j < M.length), (L[i].x = M[i].x ∧ L[i].y = M[i].y) →
      (L[j].x = M[j].x ∧ L[j].y = M[j].y) → specDist L[i] L[j] = specDist M[i] M[j] := by
    intro i j hi hi2 hj hj2 h1 h2
    simp only [specDist, h1.1, h1.2, h2.1, h2.2]
  rw [calculateFingerDistances_of_le L hL, calculateFingerDistances_of_le M hM]
  simp only [specGroupDistance]
  rw [hd 2 3, hd 3 4, hd 5 6, hd 6 7, hd 9 10, hd 10 11, hd 13 14, hd 14 15, hd 17 18,
    hd 18 19] <;> first
    | omega
    | exact key _ _ _ (hxy _ (by simp))

theorem calculateFingerDistances_depends_only_witness :
    20 ≤ exampleHand.length ∧ 20 ≤ otherHand.length ∧ exampleHand.length ≠ otherHand.length ∧
      calculateFingerDistances exampleHand = calculateFingerDistances otherHand :=
  ⟨by decide, by decide, by decide,
    calculateFingerDistances_depends_only exampleHand otherHand (by decide) (by decide)
      (by simp [exampleHand, otherHand, pt])⟩

/-! ## Properties of `detectFingerLetter` -/

theorem le_fin (a b : ℚ) : F64.le (F64.fin a) (F64.fin b) = decide (a ≤ b) := rfl

theorem lt_fin (a b : ℚ) : F64.lt (F64.fin a) (F64.fin b) = decide (a < b) := rfl

/-- C3: when some rule of `letterThresholds` satisfies
`minDistance <= d <= maxDistance` for the first component `d` of the feature
vector, `detectFingerLetter` returns the letter of the first such rule in list
order together with `d`. -/
theorem detectFingerLetter_first_match (v : List F64) (d : F64)
    (pre post : List Threshold) (r : Threshold)
    (hd : v[0]? = some d) (hrules : letterThresholds = pre ++ r :: post)
    (hpre : ∀ t ∈ pre, ¬ (F64.ge d t.minDistance = true ∧ F64.le d t.maxDistance = true))
    (hmin : F64.ge d r.minDistance = true) (hmax : F64.le d r.maxDistance = true) :
    detectFingerLetter v = { letter := r.letter, distance := some d } := by
  rw [detectFingerLetter, hrules, detectLoop_first_match v pre post r, hd]
  · intro t ht
    have := hpre t ht
    rw [hd]
    simpa [inRange, toNumber] using this
  · rw [hd]
    simp [inRange, toNumber, hmin, hmax]

theorem detectFingerLetter_first_match_witness :
    detectFingerLetter [lit (15 / 100), lit 0, lit 0, lit 0, lit 0] =
      { letter := "L", distance := some (lit (15 / 100)) } :=
  detectFingerLetter_first_match [lit (15 / 100), lit 0, lit 0, lit 0, lit 0] (lit (15 / 100))
    [] [{ letter := "A", minDistance := lit (15 / 100), maxDistance := lit (2 / 10) }]
    { letter := "L", minDistance := lit (1 / 10), maxDistance := lit (15 / 100) }
    rfl rfl (by simp)
    (by simp only [F64.ge, lit_tenth, lit_fifteen, le_fin]; norm_num)
    (by simp only [lit_fifteen, le_fin]; norm_num)

theorem detectLoop_letter_empty (v : List F64) (rules : List Threshold)
    (hne : ∀ t ∈ rules, t.letter ≠ "") (h : (detectLoop v rules).letter = "") :
    ∀ t ∈ rules, inRange v[0]? t = false := by
  induction rules with
  | nil => simp
  | cons t rest ih =>
    have hrest : ∀ u ∈ rest, u.letter ≠ "" := fun u hu => hne u (List.mem_cons_of_mem _ hu)
    by_cases ht : inRange v[0]? t = true
    · have e : detectLoop v (t :: rest) = { letter := t.letter, distance := v[0]? } := by
        simp [detectLoop, ht]
      rw [e] at h
      exact absurd h (hne t (List.mem_cons_self _ _))
    · have e : detectLoop v (t :: rest) = detectLoop v rest := by simp [detectLoop, ht]
      rw [e] at h
      intro u hu
      rcases List.mem_cons.mp hu with rfl | hu
      · simpa using ht
      · exact ih hrest h u hu

/-- C4: when the first component `d` satisfies no rule of `letterThresholds`
(`d < minDistance` or `d > maxDistance` for every rule, or more generally
`minDistance <= d <= maxDistance` fails for every rule),
`detectFingerLetter` returns the sentinel with letter `""` and distance `0`,
not `d`; and the returned letter is `""` only when no rule matches, that is
when `d >= minDistance && d <= maxDistance` is false for every rule. -/
theorem detectFingerLetter_no_match (v : List F64) (d : F64) (hd : v[0]? = some d) :
    ((∀ t ∈ letterThresholds,
          ¬ (F64.ge d t.minDistance = true ∧ F64.le d t.maxDistance = true)) →
        detectFingerLetter v = { letter := "", distance := some (F64.fin 0) }) ∧
      ((∀ t ∈ letterThresholds,
          F64.lt d t.minDistance = true ∨ F64.gt d t.maxDistance = true) →
        detectFingerLetter v = { letter := "", distance := some (F64.fin 0) }) ∧
      ((detectFingerLetter v).letter = "" →
        ∀ t ∈ letterThresholds,
          ¬ (F64.ge d t.minDistance = true ∧ F64.le d t.maxDistance = true)) := by
  have main : (∀ t ∈ letterThresholds,
      ¬ (F64.ge d t.minDistance = true ∧ F64.le d t.maxDistance = true)) →
      detectFingerLetter v = { letter := "", distance := some (F64.fin 0) } := by
    intro h
    rw [detectFingerLetter, detectLoop_no_match v _ _, lit_zero]
    intro t ht
    have := h t ht
    rw [hd]
    simpa [inRange, toNumber] using this
  refine ⟨main, ?_, ?_⟩
  · intro h
    apply main
    intro t ht
    rcases h t ht with h1 | h1
    · simp [F64.ge, lt_imp_not_le h1]
    · simp [lt_imp_not_le h1]
  · intro hl t ht
    have hne : ∀ u ∈ letterThresholds, u.letter ≠ "" := by
      intro u hu
      simp only [letterThresholds, List.mem_cons, List.mem_singleton, List.not_mem_nil,
        or_false] at hu
      rcases hu with rfl | rfl <;> simp
    have := detectLoop_letter_empty v letterThresholds hne hl t ht
    rw [hd] at this
    simpa [inRange, toNumber] using this

theorem detectFingerLetter_no_match_witness :
    detectFingerLetter [lit (3 / 10), lit 0, lit 0, lit 0, lit 0] =
        { letter := "", distance := some (F64.fin 0) } ∧
      (detectFingerLetter [lit (1 / 10), lit 0, lit 0, lit 0, lit 0]).letter ≠ "" :=
  ⟨(detectFingerLetter_no_match [lit (3 / 10), lit 0, lit 0, lit 0, lit 0]
      (lit (3 / 10)) rfl).2.1 (by
      intro t ht
      simp only [letterThresholds, List.mem_cons, List.mem_singleton, List.not_mem_nil,
        or_false] at ht
      right
      rcases ht with rfl | rfl
      · simp only [F64.gt, lit_fifteen, lit_three_tenths, lt_fin]; norm_num
      · simp only [F64.gt, lit_fifth, lit_three_tenths, lt_fin]; norm_num),
    fun h => (detectFingerLetter_no_match [lit (1 / 10), lit 0, lit 0, lit 0, lit 0]
      (lit (1 / 10)) rfl).2.2 h
      { letter := "L", minDistance := lit (1 / 10), maxDistance := lit (15 / 100) }
      (by simp [letterThresholds])
      ⟨by simp only [F64.ge, lit_tenth, le_fin]; norm_num,
        by simp only [lit_tenth, lit_fifteen, le_fin]; norm_num⟩⟩

/-- C7: `detectFingerLetter` reads only the first component of its argument:
two feature vectors with the same first component (both absent, or the same
number) give the same result, whatever their other components and lengths. -/
theorem detectFingerLetter_reads_first (v w : List F64) (h : v[0]? = w[0]?) :
    detectFingerLetter v = detectFingerLetter w :=
  detectLoop_congr h letterThresholds

theorem detectFingerLetter_reads_first_witness :
    detectFingerLetter [lit (15 / 100), lit 0, lit 0, lit 0, lit 0] =
      detectFingerLetter [lit (15 / 100), lit (3 / 10)] :=
  detectFingerLetter_reads_first _ _ rfl

/-- C8: `detectFingerLetter` returns a letter and a numeric distance for every
feature vector, of any length; the letter is one of `"L"`, `"A"` and `""`;
and on a vector without first component the result is the sentinel with
letter `""` and distance `0`. -/
theorem detectFingerLetter_total (v : List F64) :
    ((detectFingerLetter v).letter = "L" ∨ (detectFingerLetter v).letter = "A" ∨
        (detectFingerLetter v).letter = "") ∧
      (∃ d, (detectFingerLetter v).distance = some d) ∧
      detectFingerLetter [] = { letter := "", distance := some (F64.fin 0) } := by
  refine ⟨?_, detect_distance_isSome v, ?_⟩
  · rcases detectLoop_cases v letterThresholds with h | ⟨u, hu, _, h2⟩
    · right; right; rw [detectFingerLetter, h]
    · rw [detectFingerLetter, h2]
      simp only [letterThresholds, List.mem_cons, List.mem_singleton, List.not_mem_nil,
        or_false] at hu
      rcases hu with rfl | rfl
      · left; rfl
      · right; left; rfl
  · rw [detectFingerLetter, detectLoop_no_match [] _ (fun t _ => inRange_none t), lit_zero]

theorem detectFingerLetter_eval (v : List F64) (d : F64) (hd : v[0]? = some d) :
    detectFingerLetter v =
      if (F64.le (lit (1 / 10)) d && F64.le d (lit (15 / 100))) = true then
        { letter := "L", distance := some d }
      else if (F64.le (lit (15 / 100)) d && F64.le d (lit (2 / 10))) = true then
        { letter := "A", distance := some d }
      else { letter := "", distance := some (lit 0) } := by
  simp only [detectFingerLetter, letterThresholds, detectLoop, hd, inRange_some]

/-- C5, the claim refuted: the rule `A` has `minDistance` 0.15, and on a feature
vector whose first component is exactly 0.15 `detectFingerLetter` returns the
letter `"L"` of the earlier rule, not `"A"`. -/
theorem boundary_counterexample :
    ({ letter := "A", minDistance := lit (15 / 100), maxDistance := lit (2 / 10) } : Threshold)
        ∈ letterThresholds ∧
      detectFingerLetter [lit (15 / 100), lit 0, lit 0, lit 0, lit 0] =
        { letter := "L", distance := some (lit (15 / 100)) } ∧
      detectFingerLetter [lit (15 / 100), lit 0, lit 0, lit 0, lit 0] ≠
        { letter := "A", distance := some (lit (15 / 100)) } := by
  have e : detectFingerLetter [lit (15 / 100), lit 0, lit 0, lit 0, lit 0] =
      { letter := "L", distance := some (lit (15 / 100)) } := by
    rw [detectFingerLetter_eval _ (lit (15 / 100)) rfl]
    simp only [lit_tenth, lit_fifteen, le_fin]
    norm_num
  refine ⟨by simp [letterThresholds], e, ?_⟩
  rw [e]
  simp

/-- C5, amended: for every rule `r` of `letterThresholds` and every feature
vector whose first component `d` equals `r.minDistance` or `r.maxDistance`,
`detectFingerLetter` returns `d` as distance with the letter of the first rule
in list order whose range holds `d`: the letter of `r`, except at `d = 0.15`,
the bound the two rules share, where it is `"L"`. -/
theorem boundary_match (r : Threshold) (hr : r ∈ letterThresholds) (v : List F64) (d : F64)
    (hd : v[0]? = some d) (hb : d = r.minDistance ∨ d = r.maxDistance) :
    detectFingerLetter v =
      { letter := if d = lit (15 / 100) then "L" else r.letter, distance := some d } := by
  rw [detectFingerLetter_eval v d hd]
  simp only [letterThresholds, List.mem_cons, List.mem_singleton, List.not_mem_nil,
    or_false] at hr
  rcases hr with rfl | rfl <;> rcases hb with rfl | rfl <;>
    simp only [lit_tenth, lit_fifteen, lit_fifth, le_fin, F64.fin.injEq] <;> norm_num

theorem boundary_match_witness :
    detectFingerLetter [lit (2 / 10), lit 0, lit 0, lit 0, lit 0] =
      { letter := "A", distance := some (lit (2 / 10)) } := by
  have h := boundary_match
    { letter := "A", minDistance := lit (15 / 100), maxDistance := lit (2 / 10) }
    (by simp [letterThresholds]) [lit (2 / 10), lit 0, lit 0, lit 0, lit 0] (lit (2 / 10))
    rfl (Or.inr rfl)
  rw [h]
  simp only [lit_fifteen, lit_fifth, F64.fin.injEq]
  norm_num

theorem predictStep_ok (st : FingerData) (h : List Landmark) (hlen : 20 ≤ h.length) :
    ∃ v, calculateFingerDistances h = .ok v ∧ predictStep st h = .ok (detectFingerLetter v) := by
  refine ⟨_, calculateFingerDistances_of_le h hlen, ?_⟩
  obtain ⟨d, hd⟩ := detect_distance_isSome
    [ specGroupDistance h[2] h[3] h[4], specGroupDistance h[5] h[6] h[7],
      specGroupDistance h[9] h[10] h[11], specGroupDistance h[13] h[14] h[15],
      specGroupDistance h[17] h[18] h[19] ]
  have h0 : h[0]? = some h[0] := List.getElem?_eq_getElem (by omega)
  simp only [predictStep, calculateFingerDistances_of_le h hlen, h0, hd, bind, Except.bind]
  rw [← hd]
  rfl

theorem foldlM_predictStep_ok (pre : List (List Landmark)) (st : FingerData)
    (hpre : ∀ h ∈ pre, 20 ≤ h.length) : ∃ st2, pre.foldlM predictStep st = .ok st2 := by
  induction pre generalizing st with
  | nil => exact ⟨st, rfl⟩
  | cons h rest ih =>
    obtain ⟨v, _, hv⟩ := predictStep_ok st h (hpre h (List.mem_cons_self _ _))
    obtain ⟨st2, h2⟩ := ih (detectFingerLetter v) (fun k hk => hpre k (List.mem_cons_of_mem _ hk))
    refine ⟨st2, ?_⟩
    rw [List.foldlM_cons, hv]
    exact h2

theorem roundF64_eighth : roundF64 (1 / 8) = F64.fin (1 / 8) := by
  apply roundF64_pos_eq (-3) (-55) (2 ^ 52) <;> norm_num

theorem roundF64_sixtyfourth : roundF64 (1 / 64) = F64.fin (1 / 64) := by
  apply roundF64_pos_eq (-6) (-58) (2 ^ 52) <;> norm_num

theorem sqrt_sixtyfourth : F64.sqrt (F64.fin (1 / 64)) = F64.fin (1 / 8) := by
  have h : sqrtMag (1 / 64) = 1 / 8 := by
    apply sqrtMag_eq (-6) (-55) (2 ^ 52) <;> norm_num
  simp only [F64.sqrt, h, overflow]
  norm_num

theorem roundF64_three_sixteenths : roundF64 (3 / 16) = F64.fin (3 / 16) := by
  apply roundF64_pos_eq (-3) (-55) (3 * 2 ^ 51) <;> norm_num

theorem roundF64_nine_256 : roundF64 (9 / 256) = F64.fin (9 / 256) := by
  apply roundF64_pos_eq (-5) (-57) (9 * 2 ^ 49) <;> norm_num

theorem sqrt_nine_256 : F64.sqrt (F64.fin (9 / 256)) = F64.fin (3 / 16) := by
  have h : sqrtMag (9 / 256) = 3 / 16 := by
    apply sqrtMag_eq (-5) (-55) (3 * 2 ^ 51) <;> norm_num
  simp only [F64.sqrt, h, overflow]
  norm_num

theorem specGroupDistance_eighth (z1 z2 z3 : F64) :
    specGroupDistance ⟨F64.fin 0, F64.fin 0, z1⟩ ⟨F64.fin (1 / 8), F64.fin 0, z2⟩
      ⟨F64.fin (1 / 8), F64.fin 0, z3⟩ = F64.fin (1 / 8) := by
  have e1 : ((1 / 8 : ℚ) - 0) = 1 / 8 := by norm_num
  have e2 : ((1 / 8 : ℚ) * (1 / 8)) = 1 / 64 := by norm_num
  have e3 : ((1 / 64 : ℚ) + 0) = 1 / 64 := by norm_num
  have e4 : ((1 / 8 : ℚ) - 1 / 8) = 0 := by norm_num
  have e5 : ((0 : ℚ) - 0) = 0 := by norm_num
  have e6 : ((0 : ℚ) * 0) = 0 := by norm_num
  have e7 : ((0 : ℚ) + 0) = 0 := by norm_num
  have e8 : ((1 / 8 : ℚ) + 0) = 1 / 8 := by norm_num
  simp only [specGroupDistance, specDist, sub_fin, mul_fin, add_fin, e1, e2, e3, e4, e5, e6,
    e7, e8, roundF64_zero, roundF64_eighth, roundF64_sixtyfourth, sqrt_sixtyfourth, sqrt_zero]

theorem specGroupDistance_three_sixteenths (z1 z2 z3 : F64) :
    specGroupDistance ⟨F64.fin 0, F64.fin 0, z1⟩ ⟨F64.fin (3 / 16), F64.fin 0, z2⟩
      ⟨F64.fin (3 / 16), F64.fin 0, z3⟩ = F64.fin (3 / 16) := by
  have e1 : ((3 / 16 : ℚ) - 0) = 3 / 16 := by norm_num
  have e2 : ((3 / 16 : ℚ) * (3 / 16)) = 9 / 256 := by norm_num
  have e3 : ((9 / 256 : ℚ) + 0) = 9 / 256 := by norm_num
  have e4 : ((3 / 16 : ℚ) - 3 / 16) = 0 := by norm_num
  have e5 : ((0 : ℚ) - 0) = 0 := by norm_num
  have e6 : ((0 : ℚ) * 0) = 0 := by norm_num
  have e7 : ((0 : ℚ) + 0) = 0 := by norm_num
  have e8 : ((3 / 16 : ℚ) + 0) = 3 / 16 := by norm_num
  simp only [specGroupDistance, specDist, sub_fin, mul_fin, add_fin, e1, e2, e3, e4, e5, e6,
    e7, e8, roundF64_zero, roundF64_three_sixteenths, roundF64_nine_256, sqrt_nine_256,
    sqrt_zero]

theorem calculateFingerDistances_handL :
    calculateFingerDistances handL =
      .ok [F64.fin (1 / 8), F64.fin 0, F64.fin 0, F64.fin 0, F64.fin 0] := by
  rw [calculateFingerDistances_of_le handL (by decide)]
  simp only [handL, pt, List.getElem_cons_succ, List.getElem_cons_zero,
    specGroupDistance_eighth, specGroupDistance_origin]

theorem calculateFingerDistances_handA :
    calculateFingerDistances handA =
      .ok [F64.fin (3 / 16), F64.fin 0, F64.fin 0, F64.fin 0, F64.fin 0] := by
  rw [calculateFingerDistances_of_le handA (by decide)]
  simp only [handA, pt, List.getElem_cons_succ, List.getElem_cons_zero,
    specGroupDistance_three_sixteenths, specGroupDistance_origin]

theorem detect_eighth :
    detectFingerLetter [F64.fin (1 / 8), F64.fin 0, F64.fin 0, F64.fin 0, F64.fin 0] =
      { letter := "L", distance := some (F64.fin (1 / 8)) } := by
  rw [detectFingerLetter_eval _ (F64.fin (1 / 8)) rfl]
  simp only [lit_tenth, lit_fifteen, le_fin]
  norm_num

theorem detect_three_sixteenths :
    detectFingerLetter [F64.fin (3 / 16), F64.fin 0, F64.fin 0, F64.fin 0, F64.fin 0] =
      { letter := "A", distance := some (F64.fin (3 / 16)) } := by
  rw [detectFingerLetter_eval _ (F64.fin (3 / 16)) rfl]
  simp only [lit_tenth, lit_fifteen, lit_fifth, le_fin]
  norm_num

/-- C9: the hands loop of `predict` is last-write-wins: for hands `h1..hn`,
`n >= 1`, each with at least 20 landmarks, the `fingerData` state after the loop
is `detectFingerLetter(calculateFingerDistances(hn))`, whatever the state before
and the hands `h1..h(n-1)`; with zero hands `fingerData` keeps its value, at
first the initial one with letter `""` and distance `0`. -/
theorem predict_last_write_wins (pre : List (List Landmark)) (hn : List Landmark)
    (fingerData : FingerData) (hpre : ∀ h ∈ pre, 20 ≤ h.length) (hlast : 20 ≤ hn.length) :
    (∃ v, calculateFingerDistances hn = .ok v ∧
        predict (some (pre ++ [hn])) fingerData = .ok (detectFingerLetter v)) ∧
      predict (some []) fingerData = .ok fingerData ∧
      predict (some []) initialFingerData =
        .ok { letter := "", distance := some (F64.fin 0) } := by
  refine ⟨?_, rfl, ?_⟩
  · obtain ⟨st2, h2⟩ := foldlM_predictStep_ok pre fingerData hpre
    obtain ⟨v, hv, hs⟩ := predictStep_ok st2 hn hlast
    refine ⟨v, hv, ?_⟩
    simp only [predict, List.foldlM_append, h2, List.foldlM_cons, List.foldlM_nil]
    show (predictStep st2 hn >>= pure) = _
    rw [hs]
    rfl
  · simp only [predict, List.foldlM_nil, initialFingerData, lit_zero]
    rfl

theorem predict_last_write_wins_witness :
    predict (some [handL, handA]) initialFingerData =
        .ok { letter := "A", distance := some (F64.fin (3 / 16)) } ∧
      predict (some [handA, handL]) initialFingerData =
        .ok { letter := "L", distance := some (F64.fin (1 / 8)) } := by
  obtain ⟨v, hv, hp⟩ := (predict_last_write_wins [handL] handA initialFingerData
    (by simp [handL]) (by decide)).1
  obtain ⟨w, hw, hq⟩ := (predict_last_write_wins [handA] handL initialFingerData
    (by simp [handA]) (by decide)).1
  rw [calculateFingerDistances_handA] at hv
  rw [calculateFingerDistances_handL] at hw
  cases hv
  cases hw
  constructor
  · rw [show [handL, handA] = [handL] ++ [handA] from rfl, hp, detect_three_sixteenths]
  · rw [show [handA, handL] = [handA] ++ [handL] from rfl, hq, detect_eighth]

end GestureRecon
